import Mathlib

/-!
# Verification of the zep Postgres message-search core

A shallow embedding of `searchMessages` and its helpers
(`pkg/store/postgres`, file `src/unnamed/part_000`) together with the
data model from `pkg/models/search.go`.

Modelling conventions:
* Go `float64`/`float32` similarity scores are represented by `ℚ`; the
  only floating-point operation the code performs on them is
  `math.IsNaN`, so a distance is an `F64`: either `nan` or a rational
  value.
* The bun `SelectQuery` builder is embedded as a first-order query
  description (`SelectQuery`) recording exactly what the code attaches:
  the distance projection, the embedding projection, the WHERE clauses,
  the ORDER BY choice and the LIMIT.  Its execution by the storage
  engine is the deterministic semantics `evalQuery` (SQL: filter by the
  conjunction of the WHERE clauses, sort by the ORDER BY key, apply
  LIMIT, project the selected columns).
* The pgvector operator `<#>` used in the projection string
  `(embedding <#> ?) * -1 AS dist` computes the negative inner product
  of the two vectors (pgvector documented semantics; spec section 6 only
  requires an inner-product-style distance operator).
* Collaborators that are code of this repository but not under `src/`
  (the `llms` embedding resolver, `parseJSONQuery`, the constants
  `DefaultMMRLambda` and `DefaultMMRMultiplier`, and
  `search.MaximalMarginalRelevance`) are modelled from the spec; each
  such definition carries a doc comment starting with
  `Modelled from the spec:`.
-/

/-- A Go `float64` as used by this code: the code only ever inspects a
distance with `math.IsNaN`, so we model the value as either `nan` or an
exact rational. -/
inductive F64 where
  | nan
  | val (q : ℚ)
deriving DecidableEq

/-- Go `math.IsNaN`. -/
def F64.isNaN : F64 → Bool
  | .nan => true
  | .val _ => false

/-- A JSON value (the shape of Go `interface{}` values held in the
`map[string]interface{}` metadata payload). -/
inductive JsonVal where
  | null
  | bool (b : Bool)
  | int (n : Int)
  | str (s : String)
  | arr (xs : List JsonVal)
  | obj (fields : List (String × JsonVal))

/-- The Go `map[string]interface{}` metadata payload: an association
list of keys to JSON values (`List.lookup` plays the role of the map
lookup `m[k]`). -/
def Metadata := List (String × JsonVal)

/-- Number of keys, Go `len(metadata)`. -/
def Metadata.length (m : Metadata) : Nat := List.length m

/-- Map lookup `m[k]`. -/
def Metadata.lookup (m : Metadata) (k : String) : Option JsonVal :=
  List.lookup k m

/-- `models.SearchType`. -/
inductive SearchType where
  | similarity
  | mmr
deriving DecidableEq

/-- `models.MemorySearchPayload`.  The Go field `Type` is renamed to
`type_` because `Type` is reserved in Lean; `MMRLambda` (a `float32`)
is a rational. -/
structure MemorySearchPayload where
  Text : String
  Metadata : Metadata
  type_ : SearchType
  MMRLambda : ℚ

/-- The message record columns projected by `buildMessagesSelectQuery`
(`m.uuid`, `m.created_at`, `m.role`, `m.content`, `m.metadata`,
`m.token_count`). -/
structure MessageRecord where
  uuid : Nat
  createdAt : Int
  role : String
  content : String
  metadata : JsonVal
  tokenCount : Nat

/-- `models.MemorySearchResult` (the `Summary` and top-level `Metadata`
fields are never populated by this query path and are omitted). -/
structure MemorySearchResult where
  message : MessageRecord
  dist : F64
  embedding : List ℚ

/-- A stored row of the `message_embedding AS me JOIN message AS m`
source: the message columns plus the columns the WHERE clauses and the
distance projection read (`m.session_id`, `m.deleted_at`,
`me.embedding`). -/
structure MessageRow where
  uuid : Nat
  sessionID : String
  createdAt : Int
  deletedAt : Option Int
  role : String
  content : String
  metadata : JsonVal
  tokenCount : Nat
  embedding : List ℚ

/-- `const DefaultMemorySearchLimit = 10` (source line 17). -/
def DefaultMemorySearchLimit : Nat := 10

/-- Modelled from the spec: `DefaultMMRLambda` is a constant of this
repository that is not under `src/`; spec section 3 fixes it to "a fixed
constant between 0 and 1, source default approx 0.5". -/
def DefaultMMRLambda : ℚ := 1/2

/-- Modelled from the spec: `DefaultMMRMultiplier` is a constant of this
repository that is not under `src/`; spec section 4.3 describes it as "a
fixed small constant, source value 2-3x". -/
def DefaultMMRMultiplier : Nat := 2

/-- Errors produced through `store.NewStorageError(message, err)`; we
keep the message and drop the wrapped Go error value. -/
inductive SearchErr where
  | storageError (msg : String)
deriving DecidableEq

/-- The error the spec taxonomy (section 7) calls `InvalidQueryError`
("nil/empty query - no text and no metadata filter"); the code realizes
it as `store.NewStorageError("empty query", ...)` (source line 38). -/
def InvalidQueryError : SearchErr := .storageError "empty query"

/-- The inner product of two vectors (missing components act as 0, as
in a dot product of equal-dimension vectors; dimension agreement is a
precondition of the embedding contract, spec section 3). -/
def innerProduct (a b : List ℚ) : ℚ := (List.zipWith (· * ·) a b).sum

/-- The pgvector `<#>` operator appearing in the projection string
`(embedding <#> ?) * -1 AS dist`: it computes the negative inner
product of its operands (pgvector documented semantics; spec section 6
requires an inner-product-style distance operator and spec section 3
requires larger `dist` to mean more similar). -/
def vectorNegInnerProduct (a b : List ℚ) : ℚ := -(innerProduct a b)

/-- `JSONQuery` (source lines 19-23): the recursive FilterNode shape a
`where` metadata payload is unmarshalled into. -/
inductive JSONQuery where
  | mk (JSONPath : String) (And : List JSONQuery) (Or : List JSONQuery)

def JSONQuery.JSONPath : JSONQuery → String
  | .mk p _ _ => p

def JSONQuery.And : JSONQuery → List JSONQuery
  | .mk _ a _ => a

def JSONQuery.Or : JSONQuery → List JSONQuery
  | .mk _ _ o => o

mutual

/-- Modelled from the spec: the field test a leaf `jsonpath` contributes
(spec section 4.1, "a leaf contributes a field-equality/containment
test rooted at its path").  The compiled predicate itself lives in
`parseJSONQuery`, which is not under `src/`; we model the path test as
"the JSONPath addresses an existing field of the metadata document". -/
def walkPath : List String → JsonVal → Bool
  | [], _ => true
  | k :: rest, .obj fields => walkFields k rest fields
  | _ :: _, _ => false

def walkFields : String → List String → List (String × JsonVal) → Bool
  | _, _, [] => false
  | k, rest, (k', v) :: fs =>
    if k = k' then walkPath rest v else walkFields k rest fs

end

/-- Modelled from the spec: the leaf condition of a FilterNode, rooted
at a dot-separated JSONPath (a leading `$` segment addresses the whole
document). -/
def pathMatches (path : String) (md : JsonVal) : Bool :=
  walkPath ((path.splitOn ".").filter (fun s => s ≠ "$")) md

mutual

/-- Modelled from the spec: the predicate compiled from a FilterNode
tree (spec section 4.1): the path condition of the node itself is conjoined
with its `and` children (all must hold) and with the disjunction of its
`or` children (when any are present). -/
def evalJSONQuery : JSONQuery → JsonVal → Bool
  | .mk p andL orL, md =>
    (if p = "" then true else pathMatches p md) &&
      evalJSONQueryAll andL md &&
      (if orL.isEmpty then true else evalJSONQueryAny orL md)

def evalJSONQueryAll : List JSONQuery → JsonVal → Bool
  | [], _ => true
  | jq :: rest, md => evalJSONQuery jq md && evalJSONQueryAll rest md

def evalJSONQueryAny : List JSONQuery → JsonVal → Bool
  | [], _ => false
  | jq :: rest, md => evalJSONQuery jq md || evalJSONQueryAny rest md

end

mutual

/-- Go `json.Unmarshal(j, &jq)` for the `JSONQuery` struct (source
lines 150-154): a JSON object yields a `JSONQuery` (unknown keys are
ignored, `jsonpath` must be a string, `and`/`or` must be arrays of
FilterNodes), JSON `null` yields the zero value, and any other shape is
an unmarshalling error. -/
def unmarshalJSONQuery : JsonVal → Except String JSONQuery
  | .obj fields => unmarshalJSONQueryFields fields (.mk "" [] [])
  | .null => .ok (.mk "" [] [])
  | _ => .error "json: cannot unmarshal value into JSONQuery"

def unmarshalJSONQueryFields :
    List (String × JsonVal) → JSONQuery → Except String JSONQuery
  | [], acc => .ok acc
  | (k, v) :: rest, acc =>
    if k = "jsonpath" then
      match v with
      | .str s => unmarshalJSONQueryFields rest (.mk s acc.And acc.Or)
      | .null => unmarshalJSONQueryFields rest acc
      | _ => .error "json: cannot unmarshal value into field jsonpath"
    else if k = "and" then
      match v with
      | .arr xs =>
        match unmarshalJSONQueryList xs with
        | .error e => .error e
        | .ok l => unmarshalJSONQueryFields rest (.mk acc.JSONPath l acc.Or)
      | .null => unmarshalJSONQueryFields rest acc
      | _ => .error "json: cannot unmarshal value into field and"
    else if k = "or" then
      match v with
      | .arr xs =>
        match unmarshalJSONQueryList xs with
        | .error e => .error e
        | .ok l => unmarshalJSONQueryFields rest (.mk acc.JSONPath acc.And l)
      | .null => unmarshalJSONQueryFields rest acc
      | _ => .error "json: cannot unmarshal value into field or"
    else
      unmarshalJSONQueryFields rest acc

def unmarshalJSONQueryList : List JsonVal → Except String (List JSONQuery)
  | [] => .ok []
  | v :: vs =>
    match unmarshalJSONQuery v with
    | .error e => .error e
    | .ok q =>
      match unmarshalJSONQueryList vs with
      | .error e => .error e
      | .ok qs => .ok (q :: qs)

end

/-- One WHERE clause attached to the assembled query.  The assembled
query keeps the list of clauses; the storage engine conjoins them
(SQL `WHERE c1 AND c2 AND ...`, see `rowKept`). -/
inductive WhereClause where
  | sessionEq (sessionID : String)
  | deletedAtNull
  | createdAtGE (v : JsonVal)
  | createdAtLE (v : JsonVal)
  | jsonFilter (jq : JSONQuery)

/-- The ORDER BY choice of the assembled query. -/
inductive SortOrder where
  | distDesc
  | createdAtDesc
deriving DecidableEq

/-- The embedding of the bun `*bun.SelectQuery` being assembled: the
base projection is fixed (`buildMessagesSelectQuery`); the fields record
what the code attaches on top of it. -/
structure SelectQuery where
  includeEmbedding : Bool := false
  distExpr : Option (List ℚ) := none
  wheres : List WhereClause := []
  order : Option SortOrder := none
  limit : Nat := 0

/-- bun `q.Where(...)`: appends one WHERE clause. -/
def SelectQuery.addWhere (q : SelectQuery) (c : WhereClause) : SelectQuery :=
  { q with wheres := q.wheres ++ [c] }

/-- Evaluation of one WHERE clause on a stored row. -/
def evalClause (c : WhereClause) (r : MessageRow) : Bool :=
  match c with
  | .sessionEq sid => r.sessionID == sid
  | .deletedAtNull => r.deletedAt.isNone
  | .createdAtGE v =>
    match v with
    | .int t => decide (t ≤ r.createdAt)
    | _ => false
  | .createdAtLE v =>
    match v with
    | .int t => decide (r.createdAt ≤ t)
    | _ => false
  | .jsonFilter jq => evalJSONQuery jq r.metadata

/-- A row satisfies the assembled query exactly when it satisfies the
conjunction (AND) of all attached WHERE clauses. -/
def rowKept (q : SelectQuery) (r : MessageRow) : Bool :=
  q.wheres.all (fun c => evalClause c r)

/-- The `dist` column value of a row under the assembled query: the
projection string is `(embedding <#> ?) * -1 AS dist` (source line
224); when no distance projection was attached there is no `dist`
column. -/
def distOf (q : SelectQuery) (r : MessageRow) : ℚ :=
  match q.distExpr with
  | some v => vectorNegInnerProduct r.embedding v * (-1)
  | none => 0

/-- The ORDER BY relation of the assembled query (`dist DESC` or
`m.created_at DESC`, source lines 165-171). -/
def sortRel (q : SelectQuery) (a b : MessageRow) : Prop :=
  match q.order with
  | some .distDesc => distOf q b ≤ distOf q a
  | some .createdAtDesc => b.createdAt ≤ a.createdAt
  | none => True

instance (q : SelectQuery) : DecidableRel (sortRel q) := fun a b => by
  unfold sortRel
  cases q.order with
  | none => exact inferInstance
  | some o => cases o <;> exact inferInstance

/-- Projection of a selected row into a `models.MemorySearchResult`:
always the six message columns; the raw embedding only when it was
projected (MMR); the `dist` column value when a distance projection was
attached.  Modelled from the spec: a row scanned without a distance
projection carries an undefined distance, represented as NaN (spec
section 3). -/
def projectRow (q : SelectQuery) (r : MessageRow) : MemorySearchResult :=
  { message :=
      { uuid := r.uuid
        createdAt := r.createdAt
        role := r.role
        content := r.content
        metadata := r.metadata
        tokenCount := r.tokenCount }
    dist :=
      match q.distExpr with
      | some v => F64.val (vectorNegInnerProduct r.embedding v * (-1))
      | none => F64.nan
    embedding := if q.includeEmbedding then r.embedding else [] }

/-- The storage engine executing the assembled query over its stored
rows (the successful case of `executeMessagesSearchScan`, source lines
173-180): keep the rows satisfying the conjunction of the WHERE
clauses, sort them by the ORDER BY relation, apply the LIMIT, and scan
each row into a `MemorySearchResult`. -/
def evalQuery (q : SelectQuery) (rows : List MessageRow) :
    List MemorySearchResult :=
  (((rows.filter (rowKept q)).insertionSort (sortRel q)).take q.limit).map
    (projectRow q)

/-- `filterValidMessageSearchResults` (source lines 182-193): the loop
appends `result` to the accumulator when
`!math.IsNaN(result.Dist) || len(metadata) > 0`. -/
def filterValidMessageSearchResults (results : List MemorySearchResult)
    (metadata : Metadata) : List MemorySearchResult :=
  results.foldl
    (fun filteredResults result =>
      if ¬ result.dist.isNaN = true ∨ 0 < metadata.length then
        filteredResults ++ [result]
      else
        filteredResults)
    []

/-- Modelled from the spec: the embedding resolver (spec section 4.2).
`llms.GetEmbeddingModel` and `llms.EmbedTexts` are code of this
repository that is not under `src/`; they are collapsed into a single
resolver on the application state that turns the query text into one
query vector or fails with a provider error. -/
structure AppState where
  resolveEmbedding : String → Except String (List ℚ)

/-- `addMessagesVectorColumn` (source lines 206-225): resolve the query
embedding and attach the column `(embedding <#> ?) * -1 AS dist`; also
returns the resolved query vector. -/
def addMessagesVectorColumn (appState : AppState) (q : SelectQuery)
    (queryText : String) : Except SearchErr (SelectQuery × List ℚ) :=
  match appState.resolveEmbedding queryText with
  | .error _ => .error (.storageError "failed to embed query")
  | .ok e => .ok ({ q with distExpr := some e }, e)

/-- Modelled from the spec: `parseJSONQuery` is code of this repository
that is not under `src/` (called at source line 155).  Per spec section
4.1 it compiles the FilterNode tree into one predicate over the
metadata document, conjoined with the rest of the query; we model it as
attaching a single compiled predicate clause whose semantics is
`evalJSONQuery`.  The extra arguments mirror the Go call
`parseJSONQuery(qb, &jq, false, "m")`. -/
def parseJSONQuery (qb : SelectQuery) (jq : JSONQuery) (isOr : Bool)
    (tableAlias : String) : SelectQuery :=
  qb.addWhere (.jsonFilter jq)

/-- `addMessageDateFilters` (source lines 196-203): each of
`start_date` / `end_date`, when present in the metadata payload, adds
its own inequality clause on `m.created_at`. -/
def addMessageDateFilters (q : SelectQuery) (m : Metadata) : SelectQuery :=
  let q1 :=
    match m.lookup "start_date" with
    | some startDate => q.addWhere (.createdAtGE startDate)
    | none => q
  match m.lookup "end_date" with
  | some endDate => q1.addWhere (.createdAtLE endDate)
  | none => q1

/-- `applyMessagesMetadataFilter` (source lines 138-163): when the
payload has a `where` key, unmarshal it into the `JSONQuery` shape
(failures become storage errors) and compile it with `parseJSONQuery`;
then add the date filters.  The Go `json.Marshal` step is the identity
here because the metadata value already is a JSON value. -/
def applyMessagesMetadataFilter (dbQuery : SelectQuery) (metadata : Metadata) :
    Except SearchErr SelectQuery :=
  match metadata.lookup "where" with
  | some whereVal =>
    match unmarshalJSONQuery whereVal with
    | .error _ => .error (.storageError "error unmarshalling metadata")
    | .ok jq => .ok (addMessageDateFilters (parseJSONQuery dbQuery jq false "m") metadata)
  | none => .ok (addMessageDateFilters dbQuery metadata)

/-- `addMessagesSortQuery` (source lines 165-171). -/
def addMessagesSortQuery (searchText : String) (dbQuery : SelectQuery) :
    SelectQuery :=
  if searchText ≠ "" then { dbQuery with order := some .distDesc }
  else { dbQuery with order := some .createdAtDesc }

/-- `buildMessagesSelectQuery` (source lines 116-136): the fixed base
projection, plus `me.embedding AS embedding` when the search type is
MMR. -/
def buildMessagesSelectQuery (query : MemorySearchPayload) : SelectQuery :=
  let dbQuery : SelectQuery := {}
  if query.type_ = .mmr then { dbQuery with includeEmbedding := true }
  else dbQuery

/-- Source lines 72-75: inside the MMR branch, a zero `MMRLambda` on
the payload is overwritten (through the pointer) with
`DefaultMMRLambda`. -/
def mmrAdjustPayload (query : MemorySearchPayload) : MemorySearchPayload :=
  if query.type_ = .mmr ∧ query.MMRLambda = 0 then
    { query with MMRLambda := DefaultMMRLambda }
  else query

/-- Source lines 41-56: the vector-column stage (only for non-empty
text) followed by the metadata-filter stage (only for non-empty
metadata), with the error wrapping of `searchMessages`. -/
def buildStage12 (appState : AppState) (query : MemorySearchPayload) :
    Except SearchErr (SelectQuery × List ℚ) :=
  let dbQuery := buildMessagesSelectQuery query
  match
    (if query.Text ≠ "" then
      match addMessagesVectorColumn appState dbQuery query.Text with
      | .error _ => .error (.storageError "error adding vector column")
      | .ok p => .ok p
    else
      .ok (dbQuery, ([] : List ℚ)) :
      Except SearchErr (SelectQuery × List ℚ)) with
  | .error e => .error e
  | .ok (dbQuery1, queryEmbedding) =>
    match
      (if 0 < query.Metadata.length then
        match applyMessagesMetadataFilter dbQuery1 query.Metadata with
        | .error _ => .error (.storageError "error applying metadata filter")
        | .ok q => .ok q
      else
        .ok dbQuery1 :
        Except SearchErr SelectQuery) with
    | .error e => .error e
    | .ok dbQuery2 => .ok (dbQuery2, queryEmbedding)

/-- Source lines 41-79 as one unit: assemble the query.  Returns the
assembled query, the resolved query embedding, the (possibly
MMR-adjusted) payload, and the effective limit. -/
def buildMessagesQuery (appState : AppState) (query : MemorySearchPayload)
    (sessionID : String) (limit : Nat) :
    Except SearchErr (SelectQuery × List ℚ × MemorySearchPayload × Nat) :=
  match buildStage12 appState query with
  | .error e => .error e
  | .ok (dbQuery, queryEmbedding) =>
    let dbQuery3 := (dbQuery.addWhere (.sessionEq sessionID)).addWhere .deletedAtNull
    let dbQuery4 := addMessagesSortQuery query.Text dbQuery3
    let effLimit := if limit = 0 then DefaultMemorySearchLimit else limit
    let query1 := mmrAdjustPayload query
    let dbQuery5 :=
      if query1.type_ = .mmr then
        { dbQuery4 with limit := effLimit * DefaultMMRMultiplier }
      else
        { dbQuery4 with limit := effLimit }
    .ok (dbQuery5, queryEmbedding, query1, effLimit)

/-- Modelled from the spec: spec section 4.5, the similarity used by
the reranker is "the same inner-product-based similarity used
upstream". -/
def similarity (a b : List ℚ) : ℚ := innerProduct a b

/-- Modelled from the spec: the diversity penalty of a candidate is the
maximal similarity to an already selected candidate, 0 when none is
selected (spec section 4.5, step 3a). -/
def maxSimToSelected (e : List ℚ) : List (List ℚ) → ℚ
  | [] => 0
  | s :: rest => (rest.map (fun s' => similarity e s')).foldl max (similarity e s)

/-- Modelled from the spec: the MMR score of a candidate (spec section
4.5, step 3b). -/
def mmrScore (queryVec : List ℚ) (lambda : ℚ) (selected : List (List ℚ))
    (e : List ℚ) : ℚ :=
  lambda * similarity queryVec e - (1 - lambda) * maxSimToSelected e selected

/-- Modelled from the spec: greedy argmax over the remaining
candidates, ties broken by original retrieval order - earlier wins
(spec section 4.5, step 3c). -/
def pickBest (queryVec : List ℚ) (lambda : ℚ) (selected : List (List ℚ)) :
    List (Nat × List ℚ) → Option (Nat × List ℚ)
  | [] => none
  | c :: rest =>
    (c :: rest).foldl
      (fun best cand =>
        match best with
        | none => some cand
        | some b =>
          if mmrScore queryVec lambda selected b.2 <
              mmrScore queryVec lambda selected cand.2 then
            some cand
          else
            some b)
      none

/-- Modelled from the spec: the greedy selection loop of spec section
4.5, step 3: repeat until k items are selected or no candidates
remain. -/
def mmrSelect (queryVec : List ℚ) (lambda : ℚ) :
    Nat → List (Nat × List ℚ) → List (List ℚ) → List Nat → List Nat
  | 0, _, _, acc => acc
  | Nat.succ k, remaining, selected, acc =>
    match pickBest queryVec lambda selected remaining with
    | none => acc
    | some (i, e) =>
      mmrSelect queryVec lambda k
        (remaining.filter (fun p => p.1 ≠ i)) (selected ++ [e]) (acc ++ [i])

/-- Modelled from the spec: `search.MaximalMarginalRelevance` is code
of this repository that is not under `src/` (called at source line
105).  Spec section 4.5: greedy MMR over the candidate embeddings,
returning the selected indices in selection order; it fails when the
candidate list is empty while k > 0, or when a candidate embedding has
a dimensionality different from the query vector. -/
def MaximalMarginalRelevance (queryEmbedding : List ℚ)
    (embeddingList : List (List ℚ)) (lambda : ℚ) (k : Nat) :
    Except String (List Nat) :=
  if embeddingList.length = 0 ∧ 0 < k then
    .error "empty candidate list"
  else if embeddingList.any (fun e => e.length ≠ queryEmbedding.length) then
    .error "embedding dimensionality mismatch"
  else
    .ok (mmrSelect queryEmbedding lambda k embeddingList.enum [] [])

/-- `rerankMMR` (source lines 99-114). -/
def rerankMMR (results : List MemorySearchResult) (queryEmbedding : List ℚ)
    (lambda : ℚ) (limit : Nat) : Except SearchErr (List MemorySearchResult) :=
  let embeddingList := results.map (fun result => result.embedding)
  match MaximalMarginalRelevance queryEmbedding embeddingList lambda limit with
  | .error _ => .error (.storageError "error applying mmr")
  | .ok rerankedIdxs => .ok (rerankedIdxs.filterMap (fun idx => results.get? idx))

/-- `searchMessages` (source lines 25-97).  The Go function receives
the payload through a pointer and may mutate it (line 74); the second
component of the returned pair is the final state of the pointed-to
payload.  The storage engine scan (source line 81) is modelled by the
deterministic query semantics `evalQuery` over the stored rows. -/
def searchMessages (appState : Option AppState) (rows : List MessageRow)
    (sessionID : String) (query : Option MemorySearchPayload) (limit : Nat) :
    Except SearchErr (List MemorySearchResult) × Option MemorySearchPayload :=
  match query, appState with
  | none, _ => (.error (.storageError "nil query or appState received"), none)
  | some q, none =>
    (.error (.storageError "nil query or appState received"), some q)
  | some q, some app =>
    if q.Text = "" ∧ q.Metadata.length = 0 then
      (.error (.storageError "empty query"), some q)
    else
      match buildMessagesQuery app q sessionID limit with
      | .error e => (.error e, some q)
      | .ok (dbQuery, queryEmbedding, q1, effLimit) =>
        let results := evalQuery dbQuery rows
        let filteredResults := filterValidMessageSearchResults results q1.Metadata
        if q1.type_ = .mmr then
          match rerankMMR filteredResults queryEmbedding q1.MMRLambda effLimit with
          | .error e => (.error e, some q1)
          | .ok reranked => (.ok reranked, some q1)
        else
          (.ok filteredResults, some q1)

/-- The `dist` key extracted from a scanned result (NaN is ordered as
0; under a `dist DESC` ordering every row carries a rational `dist`). -/
def distF : F64 → ℚ
  | .nan => 0
  | .val x => x

/-- "Ordered by distance descending" as a pairwise relation on the
returned sequence. -/
def distDescending (a b : MemorySearchResult) : Prop :=
  distF b.dist ≤ distF a.dist

/-- "Ordered by creation timestamp descending" as a pairwise relation
on the returned sequence. -/
def createdAtDescending (a b : MemorySearchResult) : Prop :=
  b.message.createdAt ≤ a.message.createdAt

/-- The date clauses `addMessageDateFilters` contributes for a metadata
payload, in source order. -/
def dateClauses (m : Metadata) : List WhereClause :=
  ((m.lookup "start_date").elim [] (fun v => [.createdAtGE v])) ++
    ((m.lookup "end_date").elim [] (fun v => [.createdAtLE v]))

/-- Fixture: an embedding provider that resolves every text to the
one-dimensional vector `[1]`. -/
def fixApp : AppState := ⟨fun _ => Except.ok [1]⟩

/-- Fixture: a similarity payload with text `"a"` and no metadata. -/
def pSim : MemorySearchPayload :=
  { Text := "a", Metadata := [], type_ := .similarity, MMRLambda := 0 }

/-- Fixture: an MMR payload with text `"a"`, no metadata and zero
lambda. -/
def pMMR : MemorySearchPayload :=
  { Text := "a", Metadata := [], type_ := .mmr, MMRLambda := 0 }

/-- Fixture: `pMMR` after the default-lambda adjustment. -/
def pMMRAdj : MemorySearchPayload :=
  { Text := "a", Metadata := [], type_ := .mmr, MMRLambda := DefaultMMRLambda }

/-- Fixture: an empty payload (no text, no metadata). -/
def pEmpty : MemorySearchPayload :=
  { Text := "", Metadata := [], type_ := .similarity, MMRLambda := 0 }

/-- Fixture: one stored row in session `"s"`, not deleted, with
embedding `[1]`. -/
def rowA : MessageRow :=
  { uuid := 1, sessionID := "s", createdAt := 0, deletedAt := none,
    role := "user", content := "hello", metadata := .obj [],
    tokenCount := 1, embedding := [1] }

/-- Fixture: the message columns of `rowA`. -/
def msgA : MessageRecord :=
  { uuid := 1, createdAt := 0, role := "user", content := "hello",
    metadata := .obj [], tokenCount := 1 }

/-- Fixture: the query assembled for `pSim` in session `"s"` with
requested limit 0. -/
def qSimBuilt : SelectQuery :=
  { includeEmbedding := false, distExpr := some [1],
    wheres := [.sessionEq "s", .deletedAtNull],
    order := some .distDesc, limit := 10 }

/-- Fixture: the query assembled for `pMMR` in session `"s"` with
requested limit 0. -/
def qMMRBuilt : SelectQuery :=
  { includeEmbedding := true, distExpr := some [1],
    wheres := [.sessionEq "s", .deletedAtNull],
    order := some .distDesc, limit := 20 }

/-- Fixture: the query assembled for `pMMR` in session `"s"` with
requested limit 1. -/
def qMMRBuilt1 : SelectQuery :=
  { includeEmbedding := true, distExpr := some [1],
    wheres := [.sessionEq "s", .deletedAtNull],
    order := some .distDesc, limit := 2 }

/-- Fixture: an empty base query. -/
def emptySelect : SelectQuery := {}

/-- Fixture: a metadata payload holding only the two date bounds. -/
def mDates : Metadata := [("start_date", .int 1), ("end_date", .int 5)]

/-- Fixture: the query produced by applying `mDates` to the empty base
query. -/
def qDates : SelectQuery :=
  { wheres := [.createdAtGE (.int 1), .createdAtLE (.int 5)] }

theorem filterValid_foldl_eq (metadata : Metadata) :
    ∀ (results : List MemorySearchResult) (acc : List MemorySearchResult),
      results.foldl
        (fun filteredResults result =>
          if ¬ result.dist.isNaN = true ∨ 0 < metadata.length then
            filteredResults ++ [result]
          else
            filteredResults)
        acc =
      acc ++ results.filter
        (fun r => ! r.dist.isNaN || decide (0 < metadata.length)) := by
  intro results
  induction results with
  | nil => intro acc; simp
  | cons r rest ih =>
    intro acc
    by_cases h : ¬ r.dist.isNaN = true ∨ 0 < metadata.length
    · have hb : (! r.dist.isNaN || decide (0 < metadata.length)) = true := by
        rcases h with h | h
        · simp [h]
        · simp [h]
      simp only [List.foldl_cons, if_pos h, ih, List.filter_cons, hb]
      simp
    · have hb : (! r.dist.isNaN || decide (0 < metadata.length)) = false := by
        push_neg at h
        simp [h.1, h.2]
      simp only [List.foldl_cons, if_neg h, ih, List.filter_cons, hb]
      simp

/-- C2: the result validator is exactly a filter: a row is kept iff its
distance is not NaN or the metadata filter is non-empty; rows are
neither modified nor reordered. -/
theorem filterValid_eq_filter (results : List MemorySearchResult)
    (metadata : Metadata) :
    filterValidMessageSearchResults results metadata =
      results.filter
        (fun r => ! r.dist.isNaN || decide (0 < metadata.length)) := by
  unfold filterValidMessageSearchResults
  rw [filterValid_foldl_eq]
  simp

theorem addMessageDateFilters_eq (q : SelectQuery) (m : Metadata) :
    addMessageDateFilters q m = { q with wheres := q.wheres ++ dateClauses m } := by
  unfold addMessageDateFilters dateClauses SelectQuery.addWhere
  cases m.lookup "start_date" <;> cases m.lookup "end_date" <;> simp

theorem applyMessagesMetadataFilter_ok {q : SelectQuery} {m : Metadata}
    {q' : SelectQuery} (h : applyMessagesMetadataFilter q m = .ok q') :
    ∃ compiledWhere : List WhereClause,
      q' = { q with wheres := q.wheres ++ compiledWhere ++ dateClauses m } ∧
      (m.lookup "where" = none → compiledWhere = []) := by
  unfold applyMessagesMetadataFilter at h
  split at h
  case h_1 w hw =>
    split at h
    case h_1 => cases h
    case h_2 jq hu =>
      refine ⟨[.jsonFilter jq], ?_, by intro hn; rw [hw] at hn; cases hn⟩
      rw [addMessageDateFilters_eq] at h
      cases h
      simp [parseJSONQuery, SelectQuery.addWhere]
  case h_2 hw =>
    refine ⟨[], ?_, fun _ => rfl⟩
    rw [addMessageDateFilters_eq] at h
    cases h
    simp

/-- C6: when the metadata payload holds `start_date` and/or `end_date`,
each present bound is compiled as its own inequality clause on the
record creation timestamp, inclusive (`created_at >= start_date`,
`created_at <= end_date`), conjoined by AND with the rest of the
compiled filter (the assembled query keeps the conjunction of all
WHERE clauses, `rowKept`); the date keys are appended outside whatever
the recursive FilterNode grammar compiled (`compiledWhere`). -/
theorem date_bounds_compiled_independently
    (q : SelectQuery) (m : Metadata) (q' : SelectQuery)
    (h : applyMessagesMetadataFilter q m = .ok q') :
    (∃ compiledWhere : List WhereClause,
        q'.wheres = q.wheres ++ compiledWhere ++ dateClauses m ∧
        (m.lookup "where" = none → compiledWhere = [])) ∧
    (∀ s : Int, m.lookup "start_date" = some (.int s) →
        WhereClause.createdAtGE (.int s) ∈ q'.wheres ∧
        (∀ r : MessageRow,
          evalClause (.createdAtGE (.int s)) r = decide (s ≤ r.createdAt)) ∧
        (∀ r : MessageRow, rowKept q' r = true → s ≤ r.createdAt)) ∧
    (∀ e : Int, m.lookup "end_date" = some (.int e) →
        WhereClause.createdAtLE (.int e) ∈ q'.wheres ∧
        (∀ r : MessageRow,
          evalClause (.createdAtLE (.int e)) r = decide (r.createdAt ≤ e)) ∧
        (∀ r : MessageRow, rowKept q' r = true → r.createdAt ≤ e)) := by
  obtain ⟨cw, hq, hnone⟩ := applyMessagesMetadataFilter_ok h
  subst hq
  refine ⟨⟨cw, rfl, hnone⟩, ?_, ?_⟩
  · intro s hs
    have hmem : WhereClause.createdAtGE (.int s) ∈
        (q.wheres ++ cw ++ dateClauses m) := by
      simp [dateClauses, hs]
    refine ⟨hmem, fun r => rfl, ?_⟩
    intro r hr
    have := List.all_eq_true.mp hr _ hmem
    simpa [evalClause] using this
  · intro e he
    have hmem : WhereClause.createdAtLE (.int e) ∈
        (q.wheres ++ cw ++ dateClauses m) := by
      simp [dateClauses, he]
    refine ⟨hmem, fun r => rfl, ?_⟩
    intro r hr
    have := List.all_eq_true.mp hr _ hmem
    simpa [evalClause] using this

/-- Witness for C6 at a concrete metadata payload carrying both date
bounds. -/
theorem date_bounds_compiled_independently_witness :
    applyMessagesMetadataFilter emptySelect mDates = .ok qDates ∧
    (WhereClause.createdAtGE (.int 1) ∈ qDates.wheres ∧
      (∀ r : MessageRow, rowKept qDates r = true → 1 ≤ r.createdAt)) ∧
    (WhereClause.createdAtLE (.int 5) ∈ qDates.wheres ∧
      (∀ r : MessageRow, rowKept qDates r = true → r.createdAt ≤ 5)) := by
  have h := date_bounds_compiled_independently emptySelect mDates qDates rfl
  exact ⟨rfl, ⟨(h.2.1 1 rfl).1, (h.2.1 1 rfl).2.2⟩,
    ⟨(h.2.2 5 rfl).1, (h.2.2 5 rfl).2.2⟩⟩

theorem mmrAdjustPayload_type_ (query : MemorySearchPayload) :
    (mmrAdjustPayload query).type_ = query.type_ := by
  unfold mmrAdjustPayload; split <;> rfl

theorem mmrAdjustPayload_Text (query : MemorySearchPayload) :
    (mmrAdjustPayload query).Text = query.Text := by
  unfold mmrAdjustPayload; split <;> rfl

theorem mmrAdjustPayload_Metadata (query : MemorySearchPayload) :
    (mmrAdjustPayload query).Metadata = query.Metadata := by
  unfold mmrAdjustPayload; split <;> rfl

theorem addMessagesSortQuery_wheres (t : String) (q : SelectQuery) :
    (addMessagesSortQuery t q).wheres = q.wheres := by
  unfold addMessagesSortQuery; split <;> rfl

theorem addMessagesSortQuery_distExpr (t : String) (q : SelectQuery) :
    (addMessagesSortQuery t q).distExpr = q.distExpr := by
  unfold addMessagesSortQuery; split <;> rfl

theorem addMessagesSortQuery_order (t : String) (q : SelectQuery) :
    (addMessagesSortQuery t q).order =
      some (if t = "" then SortOrder.createdAtDesc else SortOrder.distDesc) := by
  by_cases h : t = "" <;> simp [addMessagesSortQuery, h]

theorem buildStage12_ok {app : AppState} {query : MemorySearchPayload}
    {dbq : SelectQuery} {v : List ℚ}
    (h : buildStage12 app query = .ok (dbq, v)) (hT : query.Text ≠ "") :
    dbq.distExpr = some v ∧ app.resolveEmbedding query.Text = Except.ok v := by
  unfold buildStage12 at h
  simp only [if_pos hT] at h
  unfold addMessagesVectorColumn at h
  cases hr : app.resolveEmbedding query.Text with
  | error e => rw [hr] at h; cases h
  | ok emb =>
    rw [hr] at h
    by_cases hm : 0 < query.Metadata.length
    · simp only [if_pos hm] at h
      cases ha : applyMessagesMetadataFilter
          { buildMessagesSelectQuery query with distExpr := some emb }
          query.Metadata with
      | error e => rw [ha] at h; cases h
      | ok q2 =>
        rw [ha] at h
        obtain ⟨cw, hq2, -⟩ := applyMessagesMetadataFilter_ok ha
        cases h
        subst hq2
        exact ⟨rfl, rfl⟩
    · simp only [if_neg hm] at h
      cases h
      exact ⟨rfl, rfl⟩

theorem buildMessagesQuery_ok {app : AppState} {query : MemorySearchPayload}
    {sid : String} {L : Nat} {q : SelectQuery} {v : List ℚ}
    {p' : MemorySearchPayload} {eff : Nat}
    (h : buildMessagesQuery app query sid L = .ok (q, v, p', eff)) :
    p' = mmrAdjustPayload query ∧
    eff = (if L = 0 then DefaultMemorySearchLimit else L) ∧
    q.limit =
      (if query.type_ = .mmr then
        (if L = 0 then DefaultMemorySearchLimit else L) * DefaultMMRMultiplier
      else
        (if L = 0 then DefaultMemorySearchLimit else L)) ∧
    q.order =
      some (if query.Text = "" then SortOrder.createdAtDesc
            else SortOrder.distDesc) ∧
    WhereClause.sessionEq sid ∈ q.wheres ∧
    WhereClause.deletedAtNull ∈ q.wheres ∧
    (query.Text ≠ "" →
      q.distExpr = some v ∧ app.resolveEmbedding query.Text = Except.ok v) := by
  unfold buildMessagesQuery at h
  cases hs : buildStage12 app query with
  | error e => rw [hs] at h; cases h
  | ok pr =>
    obtain ⟨dbq0, v0⟩ := pr
    rw [hs] at h
    simp only [Except.ok.injEq, Prod.mk.injEq] at h
    obtain ⟨hq, hv, hp, he⟩ := h
    subst hq hv hp he
    refine ⟨rfl, rfl, ?_, ?_, ?_, ?_, ?_⟩
    · by_cases hmm : query.type_ = .mmr <;>
        simp [mmrAdjustPayload_type_, hmm]
    · by_cases hmm : (mmrAdjustPayload query).type_ = .mmr <;>
        simp [hmm, addMessagesSortQuery_order]
    · by_cases hmm : (mmrAdjustPayload query).type_ = .mmr <;>
        simp [hmm, addMessagesSortQuery_wheres, SelectQuery.addWhere]
    · by_cases hmm : (mmrAdjustPayload query).type_ = .mmr <;>
        simp [hmm, addMessagesSortQuery_wheres, SelectQuery.addWhere]
    · intro hT
      obtain ⟨hd, hr⟩ := buildStage12_ok hs hT
      constructor
      · by_cases hmm : (mmrAdjustPayload query).type_ = .mmr <;>
          simp [hmm, addMessagesSortQuery_distExpr, SelectQuery.addWhere, hd]
      · exact hr

/-- C3: the effective limit is `DefaultMemorySearchLimit = 10` when the
requested limit is 0 and the requested limit otherwise; the assembled
query sent to storage carries LIMIT `effective * DefaultMMRMultiplier`
when the search type is MMR, and exactly the effective limit
otherwise. -/
theorem limit_policy (app : AppState) (query : MemorySearchPayload)
    (sid : String) (L : Nat) (q : SelectQuery) (v : List ℚ)
    (p' : MemorySearchPayload) (eff : Nat)
    (h : buildMessagesQuery app query sid L = .ok (q, v, p', eff)) :
    DefaultMemorySearchLimit = 10 ∧
    eff = (if L = 0 then DefaultMemorySearchLimit else L) ∧
    q.limit =
      (if query.type_ = .mmr then
        (if L = 0 then DefaultMemorySearchLimit else L) * DefaultMMRMultiplier
      else
        (if L = 0 then DefaultMemorySearchLimit else L)) := by
  obtain ⟨-, he, hl, -, -, -, -⟩ := buildMessagesQuery_ok h
  exact ⟨rfl, he, hl⟩

/-- Witness for C3: an MMR query with requested limit 0 is assembled
with LIMIT 20 = 10 * 2 and effective limit 10. -/
theorem limit_policy_witness :
    buildMessagesQuery fixApp pMMR "s" 0 = .ok (qMMRBuilt, [1], pMMRAdj, 10) ∧
    qMMRBuilt.limit = DefaultMemorySearchLimit * DefaultMMRMultiplier := by
  have h := limit_policy fixApp pMMR "s" 0 qMMRBuilt [1] pMMRAdj 10 rfl
  exact ⟨rfl, by simpa [pMMR] using h.2.2⟩

/-- C7: every assembled query carries the session-scoping clause and
the soft-delete-exclusion clause, and any row satisfying the assembled
query belongs to the requested session and is not soft-deleted. -/
theorem session_scope_and_soft_delete (app : AppState)
    (query : MemorySearchPayload) (sid : String) (L : Nat) (q : SelectQuery)
    (v : List ℚ) (p' : MemorySearchPayload) (eff : Nat)
    (h : buildMessagesQuery app query sid L = .ok (q, v, p', eff)) :
    WhereClause.sessionEq sid ∈ q.wheres ∧
    WhereClause.deletedAtNull ∈ q.wheres ∧
    ∀ r : MessageRow, rowKept q r = true →
      r.sessionID = sid ∧ r.deletedAt = none := by
  obtain ⟨-, -, -, -, hs, hd, -⟩ := buildMessagesQuery_ok h
  refine ⟨hs, hd, ?_⟩
  intro r hr
  have h1 := List.all_eq_true.mp hr _ hs
  have h2 := List.all_eq_true.mp hr _ hd
  constructor
  · simpa [evalClause] using h1
  · simpa [evalClause, Option.isNone_iff_eq_none] using h2

/-- Witness for C7 at a concrete assembled query. -/
theorem session_scope_and_soft_delete_witness :
    buildMessagesQuery fixApp pSim "s" 0 = .ok (qSimBuilt, [1], pSim, 10) ∧
    WhereClause.sessionEq "s" ∈ qSimBuilt.wheres ∧
    WhereClause.deletedAtNull ∈ qSimBuilt.wheres ∧
    ∀ r : MessageRow, rowKept qSimBuilt r = true →
      r.sessionID = "s" ∧ r.deletedAt = none := by
  have h := session_scope_and_soft_delete fixApp pSim "s" 0 qSimBuilt [1] pSim 10 rfl
  exact ⟨rfl, h.1, h.2.1, h.2.2⟩

/-- C4 counterexample: with stored embedding `[1]` and query vector
`[1]` the distance attached to the returned row is `+1` (the inner
product), whereas the claimed value `-(storedEmbedding · queryEmbedding)`
is `-1`; so the attached distance is not `-(s · q)`. -/
theorem dist_sign_counterexample :
    (searchMessages (some fixApp) [rowA] "s" (some pSim) 1).1 =
      .ok [{ message := msgA,
             dist := F64.val (vectorNegInnerProduct rowA.embedding [1] * (-1)),
             embedding := [] }] ∧
    F64.val (vectorNegInnerProduct rowA.embedding [1] * (-1)) = F64.val 1 ∧
    F64.val (-(innerProduct rowA.embedding [1])) = F64.val (-1) ∧
    F64.val (1 : ℚ) ≠ F64.val (-1 : ℚ) := by
  refine ⟨rfl, ?_, ?_, by decide⟩
  · congr 1
    norm_num [vectorNegInnerProduct, innerProduct, rowA]
  · congr 1
    norm_num [innerProduct, rowA]

/-- C4 (amended): for every query with non-empty text, the distance
attached to a row is the inner product of the stored embedding with the
resolved query vector (the negative-inner-product operator value
multiplied by -1), so larger values mean more similar. -/
theorem dist_is_inner_product (app : AppState) (query : MemorySearchPayload)
    (sid : String) (L : Nat) (q : SelectQuery) (v : List ℚ)
    (p' : MemorySearchPayload) (eff : Nat) (r : MessageRow)
    (hT : query.Text ≠ "")
    (h : buildMessagesQuery app query sid L = .ok (q, v, p', eff)) :
    app.resolveEmbedding query.Text = Except.ok v ∧
    (projectRow q r).dist = F64.val (innerProduct r.embedding v) := by
  obtain ⟨-, -, -, -, -, -, hde⟩ := buildMessagesQuery_ok h
  obtain ⟨hd, hr⟩ := hde hT
  refine ⟨hr, ?_⟩
  simp only [projectRow, hd, vectorNegInnerProduct]
  congr 1
  ring

/-- Witness for C4 (amended) at the concrete fixtures. -/
theorem dist_is_inner_product_witness :
    pSim.Text ≠ "" ∧
    buildMessagesQuery fixApp pSim "s" 0 = .ok (qSimBuilt, [1], pSim, 10) ∧
    fixApp.resolveEmbedding pSim.Text = Except.ok [1] ∧
    (projectRow qSimBuilt rowA).dist =
      F64.val (innerProduct rowA.embedding [1]) := by
  have h := dist_is_inner_product fixApp pSim "s" 0 qSimBuilt [1] pSim 10 rowA
    (by decide) rfl
  exact ⟨by decide, rfl, h.1, h.2⟩

theorem distF_projectRow (q : SelectQuery) (r : MessageRow) :
    distF (projectRow q r).dist = distOf q r := by
  unfold projectRow distOf distF
  cases q.distExpr <;> simp

theorem evalQuery_sorted_dist {q : SelectQuery} (rows : List MessageRow)
    (h : q.order = some .distDesc) :
    (evalQuery q rows).Pairwise distDescending := by
  unfold evalQuery
  refine @List.Pairwise.map _ _ (sortRel q) _ _ _ ?_ ?_
  · intro a b hab
    have hab' : distOf q b ≤ distOf q a := by
      simpa [sortRel, h] using hab
    simpa [distDescending, distF_projectRow] using hab'
  · refine List.Pairwise.sublist (List.take_sublist _ _) ?_
    haveI : IsTotal MessageRow (sortRel q) :=
      ⟨by intro a b; simp only [sortRel, h]; exact le_total _ _⟩
    haveI : IsTrans MessageRow (sortRel q) :=
      ⟨by intro a b c; simp only [sortRel, h]
          intro h1 h2; exact le_trans h2 h1⟩
    exact List.sorted_insertionSort _ _

theorem evalQuery_sorted_created {q : SelectQuery} (rows : List MessageRow)
    (h : q.order = some .createdAtDesc) :
    (evalQuery q rows).Pairwise createdAtDescending := by
  unfold evalQuery
  refine @List.Pairwise.map _ _ (sortRel q) _ _ _ ?_ ?_
  · intro a b hab
    have hab' : b.createdAt ≤ a.createdAt := by
      simpa [sortRel, h] using hab
    simpa [createdAtDescending, projectRow] using hab'
  · refine List.Pairwise.sublist (List.take_sublist _ _) ?_
    haveI : IsTotal MessageRow (sortRel q) :=
      ⟨by intro a b; simp only [sortRel, h]; exact le_total _ _⟩
    haveI : IsTrans MessageRow (sortRel q) :=
      ⟨by intro a b c; simp only [sortRel, h]
          intro h1 h2; exact le_trans h2 h1⟩
    exact List.sorted_insertionSort _ _

/-- C5: the rows returned for an assembled query are ordered by
distance descending when the query text is non-empty, and by creation
timestamp descending otherwise. -/
theorem assembled_sort_policy (app : AppState) (query : MemorySearchPayload)
    (sid : String) (L : Nat) (q : SelectQuery) (v : List ℚ)
    (p' : MemorySearchPayload) (eff : Nat) (rows : List MessageRow)
    (h : buildMessagesQuery app query sid L = .ok (q, v, p', eff)) :
    (query.Text ≠ "" → (evalQuery q rows).Pairwise distDescending) ∧
    (query.Text = "" → (evalQuery q rows).Pairwise createdAtDescending) := by
  obtain ⟨-, -, -, ho, -, -, -⟩ := buildMessagesQuery_ok h
  constructor
  · intro hT
    apply evalQuery_sorted_dist
    rw [ho, if_neg hT]
  · intro hT
    apply evalQuery_sorted_created
    rw [ho, if_pos hT]

/-- Witness for C5 at a concrete assembled query. -/
theorem assembled_sort_policy_witness :
    buildMessagesQuery fixApp pSim "s" 0 = .ok (qSimBuilt, [1], pSim, 10) ∧
    (evalQuery qSimBuilt [rowA]).Pairwise distDescending := by
  have h := assembled_sort_policy fixApp pSim "s" 0 qSimBuilt [1] pSim 10 [rowA] rfl
  exact ⟨rfl, h.1 (by decide)⟩

/-- C1: a search whose payload has empty text and an empty metadata
filter returns the invalid-query error and no results. -/
theorem empty_query_invalid (app : AppState) (rows : List MessageRow)
    (sid : String) (query : MemorySearchPayload) (L : Nat)
    (hT : query.Text = "") (hM : query.Metadata = []) :
    searchMessages (some app) rows sid (some query) L =
      (.error InvalidQueryError, some query) := by
  simp [searchMessages, hT, hM, Metadata.length, InvalidQueryError]

/-- Witness for C1 at a concrete empty payload. -/
theorem empty_query_invalid_witness :
    searchMessages (some fixApp) [] "s" (some pEmpty) 0 =
      (.error InvalidQueryError, some pEmpty) :=
  empty_query_invalid fixApp [] "s" pEmpty 0 rfl rfl

/-- C10: a search with a nil query payload or nil application state
returns an error (rather than crashing) and no results. -/
theorem nil_query_or_appstate (app : Option AppState) (rows : List MessageRow)
    (sid : String) (query : Option MemorySearchPayload) (L : Nat)
    (h : query = none ∨ app = none) :
    searchMessages app rows sid query L =
      (.error (.storageError "nil query or appState received"), query) := by
  rcases h with h | h
  · subst h; cases app <;> rfl
  · subst h
    cases query with
    | none => rfl
    | some qq => rfl

/-- Witness for C10 at nil inputs. -/
theorem nil_query_or_appstate_witness :
    searchMessages none [] "s" none 0 =
      (.error (.storageError "nil query or appState received"), none) :=
  nil_query_or_appstate none [] "s" none 0 (Or.inl rfl)

theorem searchMessages_snd (app : AppState) (rows : List MessageRow)
    (sid : String) (query : MemorySearchPayload) (L : Nat) :
    (searchMessages (some app) rows sid (some query) L).2 =
      some (if query.Text = "" ∧ query.Metadata.length = 0 then query
            else
              match buildMessagesQuery app query sid L with
              | .error _ => query
              | .ok (_, _, p', _) => p') := by
  simp only [searchMessages]
  by_cases hc : query.Text = "" ∧ query.Metadata.length = 0
  · simp only [if_pos hc]
  · simp only [if_neg hc]
    cases hb : buildMessagesQuery app query sid L with
    | error e => simp
    | ok out =>
      obtain ⟨q, v, p', eff⟩ := out
      by_cases hm : p'.type_ = .mmr
      · simp only [if_pos hm]
        cases hr : rerankMMR
            (filterValidMessageSearchResults (evalQuery q rows) p'.Metadata)
            v p'.MMRLambda eff <;> simp [hr]
      · simp [if_neg hm]

/-- C9 counterexample: an MMR payload with zero lambda is mutated by
the search (its `MMRLambda` field is overwritten with the default), so
the payload is not left unchanged. -/
theorem payload_mutation_counterexample :
    (searchMessages (some fixApp) [] "s" (some pMMR) 1).2 = some pMMRAdj ∧
    pMMR.MMRLambda = 0 ∧
    pMMRAdj.MMRLambda = DefaultMMRLambda ∧
    some pMMRAdj ≠ some pMMR := by
  refine ⟨rfl, rfl, rfl, ?_⟩
  intro hcon
  rw [Option.some.injEq] at hcon
  have h1 : DefaultMMRLambda = (0 : ℚ) := congrArg MemorySearchPayload.MMRLambda hcon
  norm_num [DefaultMMRLambda] at h1

/-- C9 (amended): the search leaves every field of the payload
unchanged except `MMRLambda`, which is overwritten with the default
lambda exactly in the MMR-with-zero-lambda case (and only once the
query passes the nil/empty checks and the assembly stages). -/
theorem payload_mutation_scope (app : AppState) (rows : List MessageRow)
    (sid : String) (query : MemorySearchPayload) (L : Nat) :
    ∃ p' : MemorySearchPayload,
      (searchMessages (some app) rows sid (some query) L).2 = some p' ∧
      p'.Text = query.Text ∧ p'.Metadata = query.Metadata ∧
      p'.type_ = query.type_ ∧
      (p'.MMRLambda = query.MMRLambda ∨
        (query.type_ = .mmr ∧ query.MMRLambda = 0 ∧
          p'.MMRLambda = DefaultMMRLambda)) := by
  rw [searchMessages_snd]
  by_cases hc : query.Text = "" ∧ query.Metadata.length = 0
  · exact ⟨query, by rw [if_pos hc], rfl, rfl, rfl, Or.inl rfl⟩
  · rw [if_neg hc]
    cases hb : buildMessagesQuery app query sid L with
    | error e => exact ⟨query, rfl, rfl, rfl, rfl, Or.inl rfl⟩
    | ok out =>
      obtain ⟨q, v, p', eff⟩ := out
      have hp := (buildMessagesQuery_ok hb).1
      refine ⟨p', rfl, ?_, ?_, ?_, ?_⟩
      · rw [hp, mmrAdjustPayload_Text]
      · rw [hp, mmrAdjustPayload_Metadata]
      · rw [hp, mmrAdjustPayload_type_]
      · by_cases hml : query.type_ = .mmr ∧ query.MMRLambda = 0
        · refine Or.inr ⟨hml.1, hml.2, ?_⟩
          rw [hp]
          unfold mmrAdjustPayload
          rw [if_pos hml]
        · refine Or.inl ?_
          rw [hp]
          unfold mmrAdjustPayload
          rw [if_neg hml]

/-- C8: when the search type is MMR and the payload lambda is 0, the
lambda actually handed to the reranker is the default lambda, a
constant strictly between 0 and 1. -/
theorem mmr_zero_lambda_default (app : AppState) (query : MemorySearchPayload)
    (sid : String) (L : Nat) (q : SelectQuery) (v : List ℚ)
    (p' : MemorySearchPayload) (eff : Nat) (rows : List MessageRow)
    (h : buildMessagesQuery app query sid L = .ok (q, v, p', eff))
    (hmm : query.type_ = .mmr) (hl : query.MMRLambda = 0)
    (hne : ¬(query.Text = "" ∧ query.Metadata.length = 0)) :
    p'.MMRLambda = DefaultMMRLambda ∧
    (0 : ℚ) < DefaultMMRLambda ∧ DefaultMMRLambda < 1 ∧
    (searchMessages (some app) rows sid (some query) L).1 =
      rerankMMR (filterValidMessageSearchResults (evalQuery q rows) p'.Metadata)
        v DefaultMMRLambda eff := by
  have hp := (buildMessagesQuery_ok h).1
  have hpl : p'.MMRLambda = DefaultMMRLambda := by
    rw [hp]
    unfold mmrAdjustPayload
    rw [if_pos ⟨hmm, hl⟩]
  have hpt : p'.type_ = SearchType.mmr := by
    rw [hp, mmrAdjustPayload_type_]; exact hmm
  refine ⟨hpl, by norm_num [DefaultMMRLambda], by norm_num [DefaultMMRLambda], ?_⟩
  simp only [searchMessages]
  rw [if_neg hne, h]
  simp only [if_pos hpt, hpl]
  cases hr : rerankMMR
      (filterValidMessageSearchResults (evalQuery q rows) p'.Metadata)
      v DefaultMMRLambda eff <;> simp [hr]

/-- Witness for C8: a concrete MMR search with zero lambda whose rerank
stage receives the default lambda. -/
theorem mmr_zero_lambda_default_witness :
    buildMessagesQuery fixApp pMMR "s" 1 = .ok (qMMRBuilt1, [1], pMMRAdj, 1) ∧
    pMMRAdj.MMRLambda = DefaultMMRLambda ∧
    (searchMessages (some fixApp) [] "s" (some pMMR) 1).1 =
      rerankMMR (filterValidMessageSearchResults (evalQuery qMMRBuilt1 [])
        pMMRAdj.Metadata) [1] DefaultMMRLambda 1 := by
  have h := mmr_zero_lambda_default fixApp pMMR "s" 1 qMMRBuilt1 [1] pMMRAdj 1 []
    rfl rfl rfl (by decide)
  exact ⟨rfl, h.1, h.2.2.2⟩
